import Mathlib

/-!
Shallow embedding of the kvraft service layer (src/kvraft/server.rs and
src/kvraft/msg.rs) of the MadRaft repository, and proofs about it.

Modelling conventions:
* Rust `HashMap<String, String>` is modelled extensionally as a function
  `String → Option String` (a `HashMap` is its key-to-value mapping).
* Rust `VecDeque<u32>` is modelled as `List Nat`, front of the deque at the
  head of the list; `id as u32` is `id % 2^32`.
* Rust methods that mutate `self` are modelled as functions returning the
  new state.
* `bincode` serialization is modelled as the identity: a serialized value is
  represented by the value itself.
* `oneshot::Sender` handles are opaque tokens, modelled as `Nat`.
-/

namespace MadRaft

/-- `Op` from src/kvraft/msg.rs: the client operations of the key-value store. -/
inductive Op where
  | get (key : String)
  | put (key : String) (value : String)
  | append (key : String) (value : String)
deriving DecidableEq

/-- `Error` from src/kvraft/msg.rs: errors surfaced to a client. -/
inductive Error where
  | notLeader (hint : Nat)
  | timeout
  | failed
deriving DecidableEq

/-- `2^32`, the modulus of the `id as u32` truncation in `Kv::test_dup_id`. -/
def u32Mod : Nat := 4294967296

/-- `Kv` from src/kvraft/server.rs: the built-in key-value state machine.
`kv: HashMap<String, String>` is the mapping, `ids: VecDeque<u32>` the dedup
window (front = oldest). -/
structure Kv where
  kv : String → Option String
  ids : List Nat

/-- `Kv::default()`: empty map, empty dedup window. -/
def Kv.default : Kv := ⟨fun _ => none, []⟩

/-- `Kv::test_dup_id` (src/kvraft/server.rs lines 226-233): checks whether
`id as u32` is absent from the window, then unconditionally pops the front
when the window holds at least 100 entries and pushes `id as u32` at the
back.  The Rust method mutates `self.ids`; here the updated state is
returned alongside the uniqueness flag. -/
def Kv.testDupId (s : Kv) (id : Nat) : Bool × Kv :=
  let unique := !(s.ids.contains (id % u32Mod))
  let ids1 := if 100 ≤ s.ids.length then s.ids.tail else s.ids
  (unique, ⟨s.kv, ids1 ++ [id % u32Mod]⟩)

/-- `<Kv as State>::apply` (src/kvraft/server.rs lines 210-222).  The match
guards `if self.test_dup_id(id)` run `test_dup_id` (and hence mutate the
window) exactly once for `Put` and `Append`, whether or not the mutation is
then suppressed; a suppressed `Put`/`Append` falls through to the catch-all
arm.  `Get` returns the stored value (empty string when absent) without
touching anything. -/
def Kv.apply (s : Kv) (id : Nat) (cmd : Op) : String × Kv :=
  match cmd with
  | .put key value =>
      let t := s.testDupId id
      if t.1 then ("", ⟨fun k => if k = key then some value else t.2.kv k, t.2.ids⟩)
      else ("", t.2)
  | .append key value =>
      let t := s.testDupId id
      if t.1 then
        ("", ⟨fun k => if k = key then some (((t.2.kv key).getD "") ++ value) else t.2.kv k,
             t.2.ids⟩)
      else ("", t.2)
  | .get key => ((s.kv key).getD "", s)

/-- Applying a list of `(identifier, command)` pairs in order, as the apply
loop does with the committed commands. -/
def Kv.applySeq (s : Kv) (l : List (Nat × Op)) : Kv :=
  l.foldl (fun st p => (st.apply p.1 p.2).2) s

/-- Whether a command is one of the two mutating commands (`Put`/`Append`). -/
def Op.isMutating : Op → Bool
  | .get _ => false
  | .put _ _ => true
  | .append _ _ => true

/-- The effect of one `Kv::test_dup_id` call on the window alone: pop the
front when at least 100 entries are present, then push `id as u32` at the
back. -/
def pushId (ids : List Nat) (id : Nat) : List Nat :=
  (if 100 ≤ ids.length then ids.tail else ids) ++ [id % u32Mod]

/-- The pending-RPC registry of `Rpcs` (src/kvraft/server.rs lines 166-197):
`HashMap<u64, (u64, oneshot::Sender<T>)>` from log index to the registered
identifier and completion handle, modelled extensionally. -/
def Registry := Nat → Option (Nat × Nat)

/-- `Rpcs::register` (lines 181-185): insert `(id, sender)` at `index`,
overwriting any previous slot for that index. -/
def Rpcs.register (reg : Registry) (index : Nat) (id : Nat) (sender : Nat) : Registry :=
  fun i => if i = index then some (id, sender) else reg i

/-- `Rpcs::complete` (lines 187-196): remove the slot at `index`; when a slot
was present and its stored identifier equals `id`, send `value` through its
handle (the second component records that delivery: the handle and the value
sent), otherwise the handle is dropped and nothing is delivered. -/
def Rpcs.complete (reg : Registry) (index : Nat) (id : Nat) (value : String) :
    Registry × Option (Nat × String) :=
  match reg index with
  | some (id0, sender) =>
      (fun i => if i = index then none else reg i,
       if id = id0 then some (sender, value) else none)
  | none => (reg, none)

/-- The result of `RaftHandle::start` as consumed by `Server::apply`: either
an assigned log index or a not-leader rejection with a hint. -/
inductive StartResult where
  | ok (index : Nat)
  | notLeader (hint : Nat)

/-- The synchronous prefix of `Server::apply` (src/kvraft/server.rs lines
143-157): on a not-leader start result return `Error::NotLeader{hint}` at
once, touching nothing; on success register a pending RPC for the assigned
index with the request identifier and a fresh handle, and proceed to await
that index (returned as `.ok index`). -/
def Server.submitStart (res : StartResult) (id : Nat) (reg : Registry) (sender : Nat) :
    Registry × Except Error Nat :=
  match res with
  | .notLeader hint => (reg, .error (.notLeader hint))
  | .ok index => (Rpcs.register reg index id sender, .ok index)

/-- The await phase of `Server::apply` (lines 158-162): the argument is what
the caller observes from its completion handle within the timeout — `none`
when the timeout fired first, `some none` when the handle was closed without
a value (dropped sender), `some (some v)` when `v` was delivered. -/
def Server.awaitResult (r : Option (Option String)) : Except Error String :=
  match r with
  | none => .error .timeout
  | some none => .error .failed
  | some (some v) => .ok v

/-- One commit-stream record as decoded by the apply loop: either an
installed snapshot (its payload deserializes to a state) or a committed
command (its payload deserializes to an identifier and a command). -/
inductive ApplyMsg where
  | snapshot (index : Nat) (data : Kv)
  | command (index : Nat) (id : Nat) (cmd : Op)

/-- Everything one iteration of the apply loop produces. -/
structure LoopStep where
  state : Kv
  stateIndex : Nat
  completion : Option (Nat × Nat × String)
  snapshotRequest : Option (Nat × Kv)

/-- One iteration of the apply loop of `Server::new_with_state`
(src/kvraft/server.rs lines 82-105), specialised to the `Kv` state machine.
A snapshot record wholesale-replaces the state; a command record applies the
command and records the `rpcs.complete(index, id, ret)` call in
`completion`.  Afterwards — outside the match on the record, hence for both
kinds of record — when a size bound is configured and the probed size of the
durable "state" file reaches it, a `snapshot(state_index, data)` request is
recorded in `snapshotRequest` with the just-applied index and the current
state. -/
def applyLoopStep (maxRaftState : Option Nat) (fileSize : Nat) (s : Kv) (msg : ApplyMsg) :
    LoopStep :=
  let r : Kv × Nat × Option (Nat × Nat × String) :=
    match msg with
    | .snapshot index data => (data, index, none)
    | .command index id cmd =>
        let rs := s.apply id cmd
        (rs.2, index, some (index, id, rs.1))
  ⟨r.1, r.2.1, r.2.2,
    match maxRaftState with
    | some size => if size ≤ fileSize then some (r.2.1, r.1) else none
    | none => none⟩

/-- Claim C6: `Get` returns the stored value for the key (empty string when
absent) and returns the state unchanged: it neither mutates the map nor
consults or modifies the dedup window, whatever the identifier. -/
theorem kv_get_pure (s : Kv) (id : Nat) (key : String) :
    s.apply id (.get key) = ((s.kv key).getD "", s) := rfl

/-- Claim C9: `Put` and `Append` always answer the empty string, whether the
mutation is performed or suppressed as a duplicate; so only `Get` can ever
answer a non-empty response. -/
theorem kv_mutating_returns_empty (s : Kv) (id : Nat) (k v : String) :
    (s.apply id (.put k v)).1 = "" ∧ (s.apply id (.append k v)).1 = "" := by
  constructor <;>
    · simp only [Kv.apply]
      split <;> rfl

/-- Claim C8: when the consensus module reports this replica is not the
leader, `Server::apply` fails with `NotLeader{hint}` and the pending-request
registry is left exactly as it was — no entry is created. -/
theorem server_submitStart_notLeader (hint id sender : Nat) (reg : Registry) :
    Server.submitStart (.notLeader hint) id reg sender = (reg, .error (.notLeader hint)) := rfl

theorem kv_put_ids (s : Kv) (id : Nat) (k v : String) :
    ((s.apply id (.put k v)).2).ids = pushId s.ids id := by
  simp only [Kv.apply, Kv.testDupId, pushId]
  split <;> rfl

theorem kv_append_ids (s : Kv) (id : Nat) (k v : String) :
    ((s.apply id (.append k v)).2).ids = pushId s.ids id := by
  simp only [Kv.apply, Kv.testDupId, pushId]
  split <;> rfl

theorem kv_put_kv_eq (s : Kv) (id : Nat) (k v : String) :
    ((s.apply id (.put k v)).2).kv =
      if s.ids.contains (id % u32Mod) then s.kv
      else fun k2 => if k2 = k then some v else s.kv k2 := by
  simp only [Kv.apply, Kv.testDupId]
  rcases h : s.ids.contains (id % u32Mod) with _ | _ <;> simp [h]

theorem kv_append_kv_eq (s : Kv) (id : Nat) (k v : String) :
    ((s.apply id (.append k v)).2).kv =
      if s.ids.contains (id % u32Mod) then s.kv
      else fun k2 => if k2 = k then some (((s.kv k).getD "") ++ v) else s.kv k2 := by
  simp only [Kv.apply, Kv.testDupId]
  rcases h : s.ids.contains (id % u32Mod) with _ | _ <;> simp [h]

/-- Claim C10: every `Put`/`Append` application rewrites the window the same
way, duplicate or not: pop the front when the window is full (≥ 100) and
push the identifier's truncation at the back.  In particular a suppressed
retry re-pushes its own identifier (so the window can hold repeats and the
retry refreshes its recency), and each such call still evicts the oldest
entry when the window is full. -/
theorem kv_mutating_always_pushes (s : Kv) (id : Nat) (k v : String) :
    ((s.apply id (.put k v)).2).ids
        = (if 100 ≤ s.ids.length then s.ids.tail else s.ids) ++ [id % u32Mod] ∧
      ((s.apply id (.append k v)).2).ids
        = (if 100 ≤ s.ids.length then s.ids.tail else s.ids) ++ [id % u32Mod] := by
  exact ⟨kv_put_ids s id k v, kv_append_ids s id k v⟩

/-- Claim C2 (counterexample): identifiers `2^32` and `0` are distinct 64-bit
values, yet after `Put{"a","x"}` under identifier `2^32`, a `Put{"a","y"}`
under the never-before-seen identifier `0` is suppressed by the dedup window
(the map still holds `"x"`): duplicate detection does not key on the full
64-bit identifier. -/
theorem kv_dedup_truncation_counterexample :
    (0 : Nat) ≠ 2 ^ 32 ∧
      ((Kv.default.apply (2 ^ 32) (.put "a" "x")).2.apply 0 (.put "a" "y")).2.kv "a"
        = some "x" := by
  constructor
  · decide
  · rfl

/-- Claim C2 (amended): duplicate detection keys on the low 32 bits of the
identifier: `Put{key,value}` leaves the map unchanged when `id % 2^32` is
among the (32-bit) entries of the dedup window, and otherwise overwrites
`key` with `value`; distinct 64-bit identifiers that agree on their low 32
bits do suppress each other. -/
theorem kv_put_dedup_truncated (s : Kv) (id : Nat) (k v : String) :
    ((s.apply id (.put k v)).2).kv =
      if s.ids.contains (id % u32Mod) then s.kv
      else fun k2 => if k2 = k then some v else s.kv k2 :=
  kv_put_kv_eq s id k v

/-- Claim C5 (counterexample): applying `(1, Put "a" "b")` twice in
succession from the fresh state does not yield a state equal to applying it
once: the dedup window ends as `[1, 1]` rather than `[1]`. -/
theorem kv_twice_ne_once :
    ((Kv.default.apply 1 (.put "a" "b")).2.apply 1 (.put "a" "b")).2
      ≠ (Kv.default.apply 1 (.put "a" "b")).2 := by
  intro h
  have h2 := congrArg Kv.ids h
  have e1 : ((Kv.default.apply 1 (.put "a" "b")).2.apply 1 (.put "a" "b")).2.ids = [1, 1] := by
    decide
  have e2 : (Kv.default.apply 1 (.put "a" "b")).2.ids = [1] := by decide
  rw [e1, e2] at h2
  exact absurd h2 (by decide)

theorem kv_second_apply_suppressed_put (s : Kv) (id : Nat) (k v : String) :
    ((s.apply id (.put k v)).2.apply id (.put k v)).2.kv = ((s.apply id (.put k v)).2).kv := by
  rw [kv_put_kv_eq ((s.apply id (.put k v)).2) id k v]
  have hmem : ((s.apply id (.put k v)).2).ids.contains (id % u32Mod) = true := by
    rw [kv_put_ids]
    simp [pushId]
  rw [hmem]
  simp

theorem kv_second_apply_suppressed_append (s : Kv) (id : Nat) (k v : String) :
    ((s.apply id (.append k v)).2.apply id (.append k v)).2.kv
      = ((s.apply id (.append k v)).2).kv := by
  rw [kv_append_kv_eq ((s.apply id (.append k v)).2) id k v]
  have hmem : ((s.apply id (.append k v)).2).ids.contains (id % u32Mod) = true := by
    rw [kv_append_ids]
    simp [pushId]
  rw [hmem]
  simp

/-- Claim C5 (amended): applying the same `(identifier, Put|Append)` twice in
immediate succession yields the same key-value mapping as applying it once
(the duplicate is suppressed), but not the same full state: the dedup window
differs, because the suppressed duplicate still pushes the identifier again
(popping the oldest entry when full). -/
theorem kv_twice_same_map (s : Kv) (id : Nat) (k v : String) :
    (((s.apply id (.put k v)).2.apply id (.put k v)).2.kv
        = ((s.apply id (.put k v)).2).kv ∧
      ((s.apply id (.put k v)).2.apply id (.put k v)).2.ids
        = pushId ((s.apply id (.put k v)).2).ids id) ∧
      (((s.apply id (.append k v)).2.apply id (.append k v)).2.kv
        = ((s.apply id (.append k v)).2).kv ∧
      ((s.apply id (.append k v)).2.apply id (.append k v)).2.ids
        = pushId ((s.apply id (.append k v)).2).ids id) :=
  ⟨⟨kv_second_apply_suppressed_put s id k v, kv_put_ids _ id k v⟩,
   ⟨kv_second_apply_suppressed_append s id k v, kv_append_ids _ id k v⟩⟩

/-- Claim C1 (counterexample): with a configured bound of `0` and a probed
file size of `0`, processing a `Snapshot` record does trigger a snapshot
request — the size check runs after snapshot records too, contradicting
"never after a Snapshot record". -/
theorem applyLoop_snapshot_check_after_snapshot :
    (applyLoopStep (some 0) 0 Kv.default (.snapshot 5 Kv.default)).snapshotRequest
      = some (5, Kv.default) := rfl

/-- Claim C1 (amended): the snapshot-size check runs after every processed
record, `Command` and `Snapshot` alike: with no configured bound it never
fires; with bound `size` it requests compaction up to the just-applied index
with the just-updated serialized state exactly when the probed size of the
durable log artifact is at least `size`. -/
theorem applyLoop_snapshot_check (size fileSize : Nat) (s : Kv) (msg : ApplyMsg) :
    (applyLoopStep none fileSize s msg).snapshotRequest = none ∧
      (applyLoopStep (some size) fileSize s msg).snapshotRequest =
        (if size ≤ fileSize then
          some ((applyLoopStep (some size) fileSize s msg).stateIndex,
            (applyLoopStep (some size) fileSize s msg).state)
        else none) := by
  cases msg <;> exact ⟨rfl, rfl⟩

/-- Claim C7: `Rpcs::complete(index, id, value)` always removes the slot for
`index` (and touches no other slot); when a slot was present it delivers
`value` through the stored handle exactly when the registered identifier
equals `id`, and otherwise drops the handle undelivered; a caller awaiting a
handle that is closed without a value observes `Failed`. -/
theorem rpcs_complete_resolution (reg : Registry) (index id : Nat) (v : String) :
    (Rpcs.complete reg index id v).1 index = none ∧
      (∀ j, j ≠ index → (Rpcs.complete reg index id v).1 j = reg j) ∧
      (∀ id0 sender, reg index = some (id0, sender) →
        (Rpcs.complete reg index id v).2 = if id = id0 then some (sender, v) else none) ∧
      (reg index = none → (Rpcs.complete reg index id v).2 = none) ∧
      Server.awaitResult (some none) = .error .failed := by
  rcases h : reg index with _ | ⟨id0, sender⟩
  · refine ⟨by simp [Rpcs.complete, h], by simp [Rpcs.complete, h], ?_,
      by simp [Rpcs.complete, h], rfl⟩
    intro a b hab
    exact absurd hab (by simp)
  · refine ⟨by simp [Rpcs.complete, h], ?_, ?_, ?_, rfl⟩
    · intro j hj
      simp [Rpcs.complete, h, hj]
    · intro a b hab
      have hab2 : (id0, sender) = (a, b) := Option.some.inj hab
      cases hab2
      simp [Rpcs.complete, h]
    · intro hnone
      exact absurd hnone (by simp)

/-- A sample registry holding identifier 7 with handle 42 at index 3. -/
def regSample : Registry := fun i => if i = 3 then some (7, 42) else none

/-- Witness for C7 at `regSample`: completing index 3 with the matching
identifier 7 removes the slot, leaves index 5 alone and delivers the value;
completing the empty index 9 delivers nothing. -/
theorem rpcs_complete_resolution_witness :
    (Rpcs.complete regSample 3 7 "ok").1 3 = none ∧
      (Rpcs.complete regSample 3 7 "ok").1 5 = regSample 5 ∧
      (Rpcs.complete regSample 3 7 "ok").2 = some (42, "ok") ∧
      (Rpcs.complete regSample 9 7 "ok").2 = none := by
  obtain ⟨h1, h2, h3, -, -⟩ := rpcs_complete_resolution regSample 3 7 "ok"
  obtain ⟨-, -, -, h4, -⟩ := rpcs_complete_resolution regSample 9 7 "ok"
  refine ⟨h1, h2 5 (by decide), ?_, h4 rfl⟩
  have := h3 7 42 rfl
  simpa using this

theorem pushId_length_le (ids : List Nat) (id : Nat) (h : ids.length ≤ 100) :
    (pushId ids id).length ≤ 100 := by
  simp only [pushId]
  split <;> simp [List.length_tail] <;> omega

theorem kv_apply_ids_length (s : Kv) (id : Nat) (cmd : Op) (h : s.ids.length ≤ 100) :
    ((s.apply id cmd).2).ids.length ≤ 100 := by
  cases cmd with
  | get key => exact h
  | put k v => rw [kv_put_ids]; exact pushId_length_le _ _ h
  | append k v => rw [kv_append_ids]; exact pushId_length_le _ _ h

theorem kv_applySeq_ids_length (l : List (Nat × Op)) (s : Kv) (h : s.ids.length ≤ 100) :
    (Kv.applySeq s l).ids.length ≤ 100 := by
  induction l generalizing s with
  | nil => exact h
  | cons p rest ih => exact ih _ (kv_apply_ids_length s p.1 p.2 h)

/-- Claim C4: from the default state, every sequence of applies leaves the
dedup window with at most 100 entries; and whenever the window is full (100
entries) a mutating apply evicts exactly the oldest entry (the front of the
deque) while pushing the new identifier at the back. -/
theorem kv_window_bounded (l : List (Nat × Op)) :
    (Kv.applySeq Kv.default l).ids.length ≤ 100 ∧
      (∀ id (k v : String), (Kv.applySeq Kv.default l).ids.length = 100 →
        (((Kv.applySeq Kv.default l).apply id (.put k v)).2).ids
            = (Kv.applySeq Kv.default l).ids.tail ++ [id % u32Mod] ∧
          (((Kv.applySeq Kv.default l).apply id (.append k v)).2).ids
            = (Kv.applySeq Kv.default l).ids.tail ++ [id % u32Mod]) := by
  refine ⟨kv_applySeq_ids_length l Kv.default (by decide), ?_⟩
  intro id k v h100
  constructor
  · rw [kv_put_ids]; simp [pushId, h100]
  · rw [kv_append_ids]; simp [pushId, h100]

/-- A sample committed sequence of 100 distinct mutating commands. -/
def seqSample : List (Nat × Op) := (List.range 100).map (fun i => (i, Op.put "b" "c"))

set_option maxRecDepth 100000 in
/-- Witness for C4 after `seqSample`: the window is at the bound, and one
more mutation drops the front entry and appends the new identifier. -/
theorem kv_window_bounded_witness :
    (Kv.applySeq Kv.default seqSample).ids.length ≤ 100 ∧
      ((Kv.applySeq Kv.default seqSample).apply 200 (.put "z" "w")).2.ids
        = (Kv.applySeq Kv.default seqSample).ids.tail ++ [200 % u32Mod] := by
  obtain ⟨h1, h2⟩ := kv_window_bounded seqSample
  exact ⟨h1, (h2 200 "z" "w" (by decide)).1⟩

/-- The dedup window after a sequence of `test_dup_id` pushes. -/
def idsAfter (ids : List Nat) (l : List Nat) : List Nat := l.foldl pushId ids

theorem kv_applySeq_ids (l : List (Nat × Op)) (s : Kv)
    (hmut : ∀ p ∈ l, (p.2).isMutating = true) :
    (Kv.applySeq s l).ids = idsAfter s.ids (l.map Prod.fst) := by
  induction l generalizing s with
  | nil => rfl
  | cons p rest ih =>
      have hp : (p.2).isMutating = true := hmut p (List.mem_cons_self p rest)
      have hstep : ((s.apply p.1 p.2).2).ids = pushId s.ids p.1 := by
        cases hc : p.2 with
        | get key => rw [hc] at hp; simp [Op.isMutating] at hp
        | put k v => exact kv_put_ids s p.1 k v
        | append k v => exact kv_append_ids s p.1 k v
      calc (Kv.applySeq s (p :: rest)).ids
          = (Kv.applySeq ((s.apply p.1 p.2).2) rest).ids := rfl
        _ = idsAfter ((s.apply p.1 p.2).2).ids (rest.map Prod.fst) :=
            ih _ (fun q hq => hmut q (List.mem_cons_of_mem p hq))
        _ = idsAfter (pushId s.ids p.1) (rest.map Prod.fst) := by rw [hstep]
        _ = idsAfter s.ids ((p :: rest).map Prod.fst) := rfl

theorem idsAfter_evict_one (l : List Nat) (ids : List Nat)
    (hlen : ids.length + l.length = 101) (hle : ids.length ≤ 100)
    (hpos : 1 ≤ ids.length) :
    idsAfter ids l = ids.tail ++ l.map (fun x => x % u32Mod) := by
  induction l generalizing ids with
  | nil => simp [idsAfter] at hlen ⊢; omega
  | cons a rest ih =>
      by_cases hfull : 100 ≤ ids.length
      · have hrest : rest = [] := by
          simp [List.length_cons] at hlen
          exact List.eq_nil_of_length_eq_zero (by omega)
        subst hrest
        calc idsAfter ids [a] = pushId ids a := rfl
          _ = ids.tail ++ [a % u32Mod] := by simp [pushId, hfull]
          _ = ids.tail ++ [a].map (fun x => x % u32Mod) := rfl
      · have hpush : pushId ids a = ids ++ [a % u32Mod] := by simp [pushId, hfull]
        have h1 : idsAfter ids (a :: rest) = idsAfter (ids ++ [a % u32Mod]) rest := by
          calc idsAfter ids (a :: rest) = idsAfter (pushId ids a) rest := rfl
            _ = idsAfter (ids ++ [a % u32Mod]) rest := by rw [hpush]
        rw [h1, ih (ids ++ [a % u32Mod]) (by simp at hlen ⊢; omega) (by simp; omega)
          (by simp)]
        have htail : (ids ++ [a % u32Mod]).tail = ids.tail ++ [a % u32Mod] := by
          cases ids with
          | nil => simp at hpos
          | cons x xs => rfl
        rw [htail]
        simp

/-- Claim C3 (counterexample): the 100 identifiers of `collideOthers` are
pairwise distinct 64-bit values, all different from `X = 0`, yet one of them
(`2^32`) agrees with `X` on its low 32 bits. -/
def collideOthers : List (Nat × Op) :=
  (List.range 100).map fun i => (((if i = 0 then 2 ^ 32 else i) : Nat), Op.put "b" "c")

/-- `Put{"a","x"}` under `X = 0`, then the 100 commands of `collideOthers`,
then the resubmission `Put{"a","y"}` under `X`. -/
def collideSeq : List (Nat × Op) :=
  (0, Op.put "a" "x") :: (collideOthers ++ [(0, Op.put "a" "y")])

set_option maxRecDepth 100000 in
/-- Claim C3 (counterexample): identifier `X = 0` applied, then 100 mutating
commands with pairwise-distinct identifiers all different from `X`, then `X`
resubmitted with `Put{"a","y"}` — yet the value for `"a"` is still `"x"`:
the resubmission did NOT take effect, because the window stores identifiers
truncated to 32 bits and `2^32` collides with `0`. -/
theorem kv_eviction_boundary_counterexample :
    collideOthers.length = 100 ∧
      List.Pairwise (fun p q => p.1 ≠ q.1) collideOthers ∧
      (∀ p ∈ collideOthers, p.1 ≠ 0) ∧
      (∀ p ∈ collideOthers, (p.2).isMutating = true) ∧
      (Kv.applySeq Kv.default collideSeq).kv "a" = some "x" := by
  refine ⟨by decide, by decide, by decide, by decide, by decide⟩

/-- Claim C3 (amended): the eviction boundary is exactly 100, provided no
truncation collision occurs: starting fresh, after a mutating command with
identifier `X`, then 100 mutating commands with pairwise-distinct
identifiers other than `X` — none of which agrees with `X` modulo `2^32` —
the dedup window no longer holds `X`'s truncation, so a resubmitted
`Put` under `X` does take effect. -/
theorem kv_eviction_boundary (X : Nat) (cmd0 : Op) (k2 v2 : String)
    (others : List (Nat × Op))
    (hmut0 : cmd0.isMutating = true)
    (hlen : others.length = 100)
    (hmut : ∀ p ∈ others, (p.2).isMutating = true)
    (hdistinct : List.Pairwise (fun p q => p.1 ≠ q.1) others)
    (hnotX : ∀ p ∈ others, p.1 ≠ X)
    (hnotX32 : ∀ p ∈ others, p.1 % u32Mod ≠ X % u32Mod) :
    ¬ (X % u32Mod) ∈ (Kv.applySeq (Kv.default.apply X cmd0).2 others).ids ∧
      ((Kv.applySeq (Kv.default.apply X cmd0).2 others).apply X (.put k2 v2)).2.kv k2
        = some v2 := by
  have h1 : ((Kv.default.apply X cmd0).2).ids = [X % u32Mod] := by
    cases hc : cmd0 with
    | get key => rw [hc] at hmut0; simp [Op.isMutating] at hmut0
    | put k v => rw [kv_put_ids]; simp [pushId, Kv.default]
    | append k v => rw [kv_append_ids]; simp [pushId, Kv.default]
  have h2 : (Kv.applySeq (Kv.default.apply X cmd0).2 others).ids
      = (others.map Prod.fst).map (fun x => x % u32Mod) := by
    rw [kv_applySeq_ids others _ hmut, h1,
      idsAfter_evict_one (others.map Prod.fst) [X % u32Mod] (by simp [hlen]) (by simp)
        (by simp)]
    rfl
  have hnotmem : ¬ (X % u32Mod) ∈ (Kv.applySeq (Kv.default.apply X cmd0).2 others).ids := by
    rw [h2]
    intro hmem
    obtain ⟨y, hy, hyx⟩ := List.mem_map.mp hmem
    obtain ⟨p, hp, hpy⟩ := List.mem_map.mp hy
    exact hnotX32 p hp (by rw [hpy]; exact hyx)
  refine ⟨hnotmem, ?_⟩
  rw [kv_put_kv_eq]
  have hcont : (Kv.applySeq (Kv.default.apply X cmd0).2 others).ids.contains (X % u32Mod)
      = false := by simpa using hnotmem
  rw [hcont]
  simp

/-- A sample of 100 mutating commands under identifiers 1..100, all distinct
from each other and from 0 both as 64-bit values and modulo `2^32`. -/
def othersSample : List (Nat × Op) := (List.range 100).map (fun i => (i + 1, Op.put "b" "c"))

set_option maxRecDepth 100000 in
/-- Witness for C3 (amended) with `X = 0` and `othersSample`: after the 100
distinct non-colliding identifiers, `0` is out of the window and its
resubmitted `Put{"a","y"}` takes effect. -/
theorem kv_eviction_boundary_witness :
    ¬ (0 % u32Mod) ∈ (Kv.applySeq (Kv.default.apply 0 (.put "a" "x")).2 othersSample).ids ∧
      ((Kv.applySeq (Kv.default.apply 0 (.put "a" "x")).2 othersSample).apply 0
        (.put "a" "y")).2.kv "a" = some "y" :=
  kv_eviction_boundary 0 (.put "a" "x") "a" "y" othersSample (by decide) (by decide)
    (by decide) (by decide) (by decide) (by decide)

end MadRaft
